import Mathlib

/-!
Verification of the `detect-inj` TCP injection-attack sensor.

This file gives a shallow embedding of the core data model and operations of
the sensor (sequence arithmetic, sequence ranges, packet manifests, the
ordered coalescing buffer, the ring buffer, and the per-connection TCP state
machine) and proves properties of them.

Modelling conventions:
* `u32` sequence numbers are `Nat`s; wrapping addition is explicit `% 2^32`
  (`seqAdd`), and the widened signed `i64` subtraction is `Int` subtraction
  (`seqSub`), exact for operands below `2^32`.
* Payload bytes are `Nat`s (only equality of bytes is ever consulted).
* Fallible operations (Rust panics: out-of-range `split_off`, out-of-range
  payload slicing, `identify` on an unknown sender, zero ring capacity)
  return `Option`, with `none` marking the panic.
* `BTreeMap<SequenceRange, _>` is a list sorted by the source's comparator;
  `insert` on a key that compares `Equal` to a stored key replaces the stored
  value and keeps the stored key, exactly as `std::collections::BTreeMap`
  documents.
* The boxed `AttackReporter` is modelled with the latching semantics of the
  shipped `ConsoleReporter` (`is_attack_detected` returns a flag that
  `report_attack` sets), together with the list of reports emitted so far.
  The wall-clock `time` field of a report is omitted (not a pure value).
-/

namespace DetectInj

/-- `Sequence + u32` : wrapping 32-bit addition (`u32::wrapping_add`). -/
def seqAdd (s k : Nat) : Nat := (s + k) % 4294967296

/-- `Sequence - Sequence` : both operands widened to `i64`, then subtracted. -/
def seqSub (a b : Nat) : Int := (a : Int) - (b : Int)

/-- The four TCP flags the sensor consults. -/
structure TcpFlags where
  syn : Bool
  ack : Bool
  fin : Bool
  rst : Bool
deriving DecidableEq

/-- TCP header fields retained in a manifest. -/
structure TcpLayer where
  src : Nat
  dst : Nat
  ack : Nat
  seq : Nat
  flags : TcpFlags
deriving DecidableEq

/-- IP endpoints retained in a manifest (addresses as abstract values). -/
structure IpLayer where
  src : Nat
  dst : Nat
deriving DecidableEq

/-- `PacketManifest`: IP + TCP headers plus the payload bytes. -/
structure PacketManifest where
  ip : IpLayer
  tcp : TcpLayer
  tcp_payload : List Nat
deriving DecidableEq

/-- `Flow`: ordered endpoint pair `((srcIP, srcPort), (dstIP, dstPort))`. -/
structure Flow where
  src : Nat × Nat
  dst : Nat × Nat
deriving DecidableEq

/-- `Flow::from(&PacketManifest)`. -/
def Flow.ofPacket (p : PacketManifest) : Flow :=
  { src := (p.ip.src, p.tcp.src), dst := (p.ip.dst, p.tcp.dst) }

/-- `Flow::reverse` swaps the endpoints. -/
def Flow.reverse (f : Flow) : Flow := { src := f.dst, dst := f.src }

/-- Packet sender side, relative to the initial packet's source. -/
inductive Side where
  | Client
  | Server
deriving DecidableEq

/-- `SideIdentifier`: the client flow and its reverse. -/
structure SideIdentifier where
  client_flow : Flow
  server_flow : Flow
deriving DecidableEq

/-- `SideIdentifier::from_client_flow`. -/
def SideIdentifier.fromClientFlow (client_flow : Flow) : SideIdentifier :=
  { client_flow, server_flow := client_flow.reverse }

/-- `SideIdentifier::identify`; `none` models the panic on an unknown sender. -/
def SideIdentifier.identify (s : SideIdentifier) (p : PacketManifest) : Option Side :=
  if s.client_flow = Flow.ofPacket p then some Side.Client
  else if s.server_flow = Flow.ofPacket p then some Side.Server
  else none

/-- `SequenceRange`: inclusive range of sequence numbers.
`lo`/`hi` embed the source's `from`/`to` fields (`from` is a Lean keyword). -/
structure SequenceRange where
  lo : Nat
  hi : Nat
deriving DecidableEq

/-- `PartialEq for SequenceRange`: ranges are equal iff they intersect. -/
def rangeEqb (a b : SequenceRange) : Bool :=
  decide (b.lo ≤ a.hi) && decide (a.lo ≤ b.hi)

/-- `Ord for SequenceRange`: `Less` before the other range, `Greater` after it,
`Equal` on intersection. -/
def rangeCmp (a b : SequenceRange) : Ordering :=
  if a.hi < b.lo then Ordering.lt
  else if a.lo > b.hi then Ordering.gt
  else Ordering.eq

/-- `PartialOrd::lt` for `SequenceRange` (derived from `Ord::cmp`). -/
def rangeLtb (a b : SequenceRange) : Bool :=
  rangeCmp a b == Ordering.lt

/-- `Payload::sub_payload`: the slice of `payload` covering `range`, indexed
relative to base sequence `relatively_to`. `none` models the panics (negative
index from `usize::try_from`, or `&self[start..=end]` out of bounds). -/
def subPayload (payload : List Nat) (range : SequenceRange) (relatively_to : Nat) :
    Option (List Nat) :=
  let start := seqSub range.lo relatively_to
  let stop := seqSub range.hi relatively_to
  if 0 ≤ start ∧ 0 ≤ stop ∧ stop.toNat < payload.length ∧ start.toNat ≤ stop.toNat + 1 then
    some ((payload.take (stop.toNat + 1)).drop start.toNat)
  else none

/-- `PacketManifest::split_off`: returns `(mutated receiver, right half)`.
`none` models the panic when `seq_no` is outside `[seq, seq + len]`. -/
def splitOff (m : PacketManifest) (seq_no : Nat) : Option (PacketManifest × PacketManifest) :=
  let d := seqSub seq_no m.tcp.seq
  if 0 ≤ d ∧ d ≤ (m.tcp_payload.length : Int) then
    some ({ m with tcp_payload := m.tcp_payload.take d.toNat },
          { ip := m.ip,
            tcp := { m.tcp with seq := seq_no },
            tcp_payload := m.tcp_payload.drop d.toNat })
  else none

/-- `OverlapBlock`: a detected payload disagreement over `range`. -/
structure OverlapBlock where
  winner : List Nat
  loser : List Nat
  range : SequenceRange
deriving DecidableEq

/-- `OrderedCoalesce`: running byte total plus the `BTreeMap` of stored
segments, modelled as a list sorted by `rangeCmp`. -/
structure OrderedCoalesce where
  total_size : Nat
  collection : List (SequenceRange × PacketManifest)
deriving DecidableEq

/-- `OrderedCoalesce::new`. -/
def OrderedCoalesce.new : OrderedCoalesce := { total_size := 0, collection := [] }

/-- An `i64` value reinterpreted as `u64` (`as u64` cast in the source). -/
def intAsU64 (i : Int) : Nat := (i % 18446744073709551616).toNat

/-- `BTreeMap::range(query..)` on the sorted collection: the suffix starting
at the first key not `Less` than `query`. -/
def btreeRangeFrom (col : List (SequenceRange × PacketManifest)) (query : SequenceRange) :
    List (SequenceRange × PacketManifest) :=
  col.dropWhile (fun e => rangeCmp e.1 query == Ordering.lt)

/-- `BTreeMap::insert` on the sorted collection: a key comparing `Equal` to a
stored key replaces the stored value (the stored key is kept, as `BTreeMap`
documents); otherwise the entry is placed at its sorted position. -/
def btreeInsert (col : List (SequenceRange × PacketManifest)) (k : SequenceRange)
    (v : PacketManifest) : List (SequenceRange × PacketManifest) :=
  match col with
  | [] => [(k, v)]
  | e :: rest =>
    match rangeCmp k e.1 with
    | Ordering.lt => (k, v) :: e :: rest
    | Ordering.eq => (e.1, v) :: rest
    | Ordering.gt => e :: btreeInsert rest k v

/-- The loop body of `OrderedCoalesce::overlap_check`, iterating over the
stored entries from the first one not left of `range`.  The source keeps the
pending non-overlapping pieces in a `Vec` used stack-wise; here `fin` holds
the settled pieces and `cur` the top of that stack.  `none` models a panic
inside `sub_payload`. -/
def overlapLoop (range : SequenceRange) (payload : List Nat) :
    List (SequenceRange × PacketManifest) → List SequenceRange → SequenceRange →
    List OverlapBlock → Option (List SequenceRange × List OverlapBlock)
  | [], fin, cur, blocks => some (fin ++ [cur], blocks)
  | (k, v) :: rest, fin, cur, blocks =>
    if rangeEqb k range = false then
      -- `if overlapping_range != range { break; }`
      some (fin ++ [cur], blocks)
    else
      match subPayload payload { lo := max k.lo range.lo, hi := min k.hi range.hi } range.lo,
            subPayload v.tcp_payload { lo := max k.lo range.lo, hi := min k.hi range.hi }
              v.tcp.seq with
      | some looser, some winner =>
        if k.hi ≤ cur.hi then
          overlapLoop range payload rest
            (if cur.lo ≤ k.lo then fin ++ [{ lo := cur.lo, hi := k.lo }] else fin)
            { lo := k.hi, hi := cur.hi }
            (if winner ≠ looser then
              blocks ++ [⟨winner, looser, ⟨max k.lo range.lo, min k.hi range.hi⟩⟩]
            else blocks)
        else
          some ((if cur.lo ≤ k.lo then fin ++ [{ lo := cur.lo, hi := k.lo }] else fin),
                (if winner ≠ looser then
                  blocks ++ [⟨winner, looser, ⟨max k.lo range.lo, min k.hi range.hi⟩⟩]
                else blocks))
      | _, _ => none

/-- `OrderedCoalesce::overlap_check`. -/
def overlapCheck (oc : OrderedCoalesce) (range : SequenceRange) (payload : List Nat) :
    Option (List SequenceRange × List OverlapBlock) :=
  overlapLoop range payload (btreeRangeFrom oc.collection range) [] range []

/-- `OrderedCoalesce::split_packet_into_sub_packets`: the `scan` over the
remainder ranges, two `split_off`s per range.  `none` models a `split_off`
panic. -/
def splitIntoSubPackets (packet : PacketManifest) :
    List SequenceRange → Option (List (SequenceRange × PacketManifest))
  | [] => some []
  | r :: rest =>
    match splitOff packet r.lo with
    | none => none
    | some (_, sub_packet) =>
      match splitOff sub_packet (seqAdd r.hi 1) with
      | none => none
      | some (sub_packet, everything_else) =>
        (splitIntoSubPackets everything_else rest).map (fun tl => (r, sub_packet) :: tl)

/-- `OrderedCoalesce::insert`.  Returns the updated buffer and the overlap
blocks (`construct_overlap_blocks_enabled` is constantly `true` in the
source, so the blocks are always constructed); `none` models a panic. -/
def OrderedCoalesce.insert (oc : OrderedCoalesce) (packet : PacketManifest) :
    Option (OrderedCoalesce × List OverlapBlock) :=
  if packet.tcp_payload.isEmpty then some (oc, [])
  else
    match overlapCheck oc
        { lo := packet.tcp.seq,
          hi := seqAdd packet.tcp.seq (packet.tcp_payload.length - 1) }
        packet.tcp_payload with
    | none => none
    | some (not_overlapping, overlap_blocks) =>
      match splitIntoSubPackets packet not_overlapping with
      | none => none
      | some pairs =>
        some (pairs.foldl
          (fun acc rp =>
            { total_size := acc.total_size + intAsU64 (seqSub rp.1.hi rp.1.lo),
              collection := btreeInsert acc.collection rp.1 rp.2 })
          oc,
          overlap_blocks)

/-- Sum of `(to - from + 1)` over the stored keys (the spec's byte count). -/
def rangesSizeSum (oc : OrderedCoalesce) : Nat :=
  oc.collection.foldl (fun a e => a + (e.1.hi - e.1.lo + 1)) 0

/-- `Ring<T>`: fixed-capacity circular buffer.  `cap` is the `Vec` capacity
requested by `with_capacity`. -/
structure Ring (T : Type) where
  cap : Nat
  buffer : List T
  oldest_ind : Option Nat
deriving DecidableEq

/-- `Ring::new`; `none` models the zero-capacity assertion panic. -/
def Ring.new (T : Type) (capacity : Nat) : Option (Ring T) :=
  if capacity = 0 then none
  else some { cap := capacity, buffer := [], oldest_ind := none }

/-- `Ring::push`. -/
def Ring.push {T : Type} (r : Ring T) (value : T) : Ring T :=
  match r.oldest_ind with
  | some i =>
    { r with
      buffer := r.buffer.set i value,
      oldest_ind := if i + 1 = r.buffer.length then some 0 else some (i + 1) }
  | none =>
    let buffer := r.buffer ++ [value]
    { r with
      buffer,
      oldest_ind := if buffer.length = r.cap then some 0 else none }

/-- The sequence yielded by `Ring::iter` (right side, then wrapped left side). -/
def Ring.iterList {T : Type} (r : Ring T) : List T :=
  match r.oldest_ind with
  | none => r.buffer
  | some n => r.buffer.drop n ++ r.buffer.take n

/-- `Ring::first`; the `some n` branch indexes `buffer[n]` (`get?` is `none`
exactly when that indexing would panic, which the invariants rule out). -/
def Ring.first? {T : Type} (r : Ring T) : Option T :=
  match r.oldest_ind with
  | some n => r.buffer.get? n
  | none => r.buffer.head?

/-- A sequence of pushes. -/
def Ring.pushAll {T : Type} (r : Ring T) (xs : List T) : Ring T :=
  xs.foldl Ring.push r

/-- Substates of the closing initiator. -/
inductive TcpInitiatingClosingState where
  | FinWait1
  | FinWait2
  | TimeWait
  | Closing
deriving DecidableEq

/-- Substates of the closing effector. -/
inductive TcpInitiatedClosingState where
  | CloseWait
  | LastAck
deriving DecidableEq

/-- `TcpClosing`: the closing initiator and the two half-states. -/
structure TcpClosing where
  initiator : Side
  initiator_state : TcpInitiatingClosingState
  effector_state : TcpInitiatedClosingState
deriving DecidableEq

/-- `TcpState`. -/
inductive TcpState where
  | ConnectionRequest
  | ConnectionEstablished
  | DataTransfer
  | ConnectionClosing (sub : TcpClosing)
  | Invalid
  | Closed
deriving DecidableEq

/-- `AttackReport::HandshakeHijack` (the only variant; the wall-clock `time`
field is omitted from the model). -/
structure AttackReport where
  packet_count : Nat
  flow : Flow
  hijack_seq : Nat
  hijack_ack : Nat
deriving DecidableEq

/-- `Connection` state.  `latched` and `reports` model the boxed
`AttackReporter` (the latching `ConsoleReporter` plus the log of reports it
was handed). -/
structure Connection where
  latched : Bool
  reports : List AttackReport
  side_id : SideIdentifier
  packet_count : Nat
  skip_hijack_detection_count : Nat
  hijack_next_ack : Nat
  state : TcpState
  client_next_seq : Nat
  server_next_seq : Option Nat
  first_syn_ack_seq : Option Nat
deriving DecidableEq

/-- `ConnectionOptions` (the reporter itself is a fresh latch-clear
`ConsoleReporter`, carried inside `Connection` in this model). -/
structure ConnectionOptions where
  skip_hijack_detection_count : Nat
deriving DecidableEq

/-- `AttackReporter::report_attack` with `ConsoleReporter` semantics: log the
report and latch the detected flag. -/
def reportAttack (c : Connection) (r : AttackReport) : Connection :=
  { c with latched := true, reports := c.reports ++ [r] }

/-- `Connection::from_packet`. -/
def fromPacket (packet : PacketManifest) (options : ConnectionOptions) : Connection :=
  let is_initial_packet := packet.tcp.flags.syn && !packet.tcp.flags.ack
  let is_closing_packet :=
    !is_initial_packet && (packet.tcp.flags.fin || packet.tcp.flags.rst)
  let client_next_seq := seqAdd (seqAdd packet.tcp.seq 1) packet.tcp_payload.length
  { latched := false,
    reports := [],
    state := if is_initial_packet then TcpState.ConnectionRequest
             else if is_closing_packet then TcpState.Closed
             else TcpState.DataTransfer,
    client_next_seq,
    server_next_seq := none,
    skip_hijack_detection_count :=
      if is_initial_packet then options.skip_hijack_detection_count else 0,
    hijack_next_ack := if is_initial_packet then client_next_seq else 0,
    packet_count := 1,
    first_syn_ack_seq := none,
    side_id := SideIdentifier.fromClientFlow (Flow.ofPacket packet) }

/-- `Connection::detect_hijack`.  The outer `Option` is the `identify` panic;
the inner `Option` is the detector's verdict.  The source's early `return
None` guards are rendered as positively-phrased nested conditionals. -/
def detectHijack (c : Connection) (packet : PacketManifest) :
    Option (Option AttackReport) :=
  (c.side_id.identify packet).map (fun sd =>
    if sd = Side.Server then
      if packet.tcp.flags.ack && packet.tcp.flags.syn then
        if packet.tcp.ack = c.hijack_next_ack then
          if some packet.tcp.seq = c.first_syn_ack_seq then none
          else some { packet_count := c.packet_count,
                      flow := Flow.ofPacket packet,
                      hijack_seq := packet.tcp.seq,
                      hijack_ack := packet.tcp.ack }
        else none
      else none
    else none)

/-- `Connection::state_connection_request` (early anomaly returns rendered as
positively-phrased nested conditionals). -/
def stateConnectionRequest (c : Connection) (packet : PacketManifest) :
    Option Connection :=
  match c.side_id.identify packet with
  | none => none
  | some sd =>
    if sd = Side.Server then
      if packet.tcp.flags.syn && packet.tcp.flags.ack then
        if seqSub c.client_next_seq packet.tcp.ack = 0 then
          some { c with
            state := TcpState.ConnectionEstablished,
            server_next_seq :=
              some (seqAdd packet.tcp.seq (packet.tcp_payload.length + 1)),
            first_syn_ack_seq := some packet.tcp.seq }
        else some c
      else some c
    else some c

/-- `Connection::state_connection_established`. -/
def stateConnectionEstablished (c : Connection) (packet : PacketManifest) :
    Option Connection :=
  let afterDetect : Option Connection :=
    if !c.latched then
      match detectHijack c packet with
      | none => none
      | some (some report) => some (reportAttack c report)
      | some none => some c
    else some c
  match afterDetect with
  | none => none
  | some c =>
    match c.side_id.identify packet with
    | none => none
    | some sd =>
      if sd = Side.Client then
        if packet.tcp.flags.syn || !packet.tcp.flags.ack then some c
        else
          if packet.tcp.seq = c.client_next_seq then
            if some packet.tcp.ack = c.server_next_seq then
              some { c with state := TcpState.DataTransfer }
            else some c
          else some c
      else some c

/-- `Connection::state_data_transfer`.  `identify` is only reached when
`server_next_seq` is still unset (the `&&` short-circuits). -/
def stateDataTransfer (c : Connection) (packet : PacketManifest) :
    Option Connection :=
  let afterRecord : Option Connection :=
    if c.server_next_seq = none then
      match c.side_id.identify packet with
      | none => none
      | some sd =>
        if sd = Side.Server then
          some { c with server_next_seq := some packet.tcp.seq }
        else some c
    else some c
  match afterRecord with
  | none => none
  | some c =>
    if c.packet_count < c.skip_hijack_detection_count then
      match detectHijack c packet with
      | none => none
      | some (some report) => some (reportAttack c report)
      | some none => some c
    else some c

/-- The `packet_count` increment at the top of `receive_packet`. -/
def bumpCount (c : Connection) : Connection :=
  { c with packet_count := c.packet_count + 1 }

/-- `Connection::receive_packet`.  `none` models an `identify` panic.  The
increment leaves `state` untouched, so the dispatch matches on `c0.state`. -/
def receivePacket (c0 : Connection) (packet : PacketManifest) : Option Connection :=
  match c0.state with
  | TcpState.ConnectionRequest => stateConnectionRequest (bumpCount c0) packet
  | TcpState.ConnectionEstablished => stateConnectionEstablished (bumpCount c0) packet
  | TcpState.DataTransfer => stateDataTransfer (bumpCount c0) packet
  | TcpState.ConnectionClosing _ => some (bumpCount c0)
  | TcpState.Closed => some (bumpCount c0)
  | TcpState.Invalid => some (bumpCount c0)

/-- Reachability invariant for a ring of capacity `c` after the pushes `ys`:
either the buffer is still filling (it holds all of `ys`), or it has wrapped
and, read from `oldest_ind`, holds exactly the last `c` pushes. -/
def RingInv {T : Type} (c : Nat) (ys : List T) (r : Ring T) : Prop :=
  r.cap = c ∧
  ((r.oldest_ind = none ∧ r.buffer = ys ∧ ys.length < c) ∨
   (∃ i, r.oldest_ind = some i ∧ i < r.buffer.length ∧ r.buffer.length = c
      ∧ c ≤ ys.length
      ∧ r.buffer.drop i ++ r.buffer.take i = ys.drop (ys.length - c)))

/-- The block the spec prescribes for one stored entry against an arriving
packet of range `range` and payload `payload`: if the stored key intersects
`range` and the stored bytes over the intersection (sliced relative to the
stored packet's own sequence) differ from the arriving bytes (sliced relative
to `range.lo`), a block with `winner` from the stored payload, `loser` from
the arriving payload, and the intersection as its range; otherwise nothing. -/
def expectedBlock (range : SequenceRange) (payload : List Nat)
    (e : SequenceRange × PacketManifest) : Option OverlapBlock :=
  if rangeEqb e.1 range then
    match subPayload payload { lo := max e.1.lo range.lo, hi := min e.1.hi range.hi }
            range.lo,
          subPayload e.2.tcp_payload { lo := max e.1.lo range.lo, hi := min e.1.hi range.hi }
            e.2.tcp.seq with
    | some looser, some winner =>
      if winner ≠ looser then
        some ⟨winner, looser, ⟨max e.1.lo range.lo, min e.1.hi range.hi⟩⟩
      else none
    | _, _ => none
  else none

/-- Stored entries are in strictly ascending, non-overlapping key order. -/
def entriesSorted (col : List (SequenceRange × PacketManifest)) : Prop :=
  List.Chain' (fun a b => a.1.hi < b.1.lo) col

/-- Every stored key is a well-formed inclusive range (`from ≤ to`). -/
def keysWF (col : List (SequenceRange × PacketManifest)) : Prop :=
  ∀ e ∈ col, e.1.lo ≤ e.1.hi

/-! ### Concrete fixtures (mirroring the repository's test inputs) -/

/-- The tests' `tcp_packet` builder. -/
def tpkt (seq : Nat) (payload : List Nat) : PacketManifest :=
  { ip := { src := 1, dst := 2 },
    tcp := { src := 1011, dst := 2022, ack := 1, seq,
             flags := { syn := false, ack := true, fin := false, rst := false } },
    tcp_payload := payload }

/-- The initial client SYN of the hijack test (seq 3, empty payload). -/
def cSynPkt : PacketManifest :=
  { ip := { src := 1, dst := 2 },
    tcp := { src := 1, dst := 2, ack := 0, seq := 3,
             flags := { syn := true, ack := false, fin := false, rst := false } },
    tcp_payload := [] }

/-- A server→client packet of the hijack test. -/
def srvPkt (seq ack : Nat) (syn ackf : Bool) : PacketManifest :=
  { ip := { src := 2, dst := 1 },
    tcp := { src := 2, dst := 1, ack, seq,
             flags := { syn, ack := ackf, fin := false, rst := false } },
    tcp_payload := [] }

/-- A client→server packet of the hijack test. -/
def cliPkt (seq ack : Nat) (syn ackf : Bool) : PacketManifest :=
  { ip := { src := 1, dst := 2 },
    tcp := { src := 1, dst := 2, ack, seq,
             flags := { syn, ack := ackf, fin := false, rst := false } },
    tcp_payload := [] }

/-- The S4 scenario: two disjoint inserts, then an insert overlapping both. -/
def s4run : Option (OrderedCoalesce × List OverlapBlock) :=
  (OrderedCoalesce.new.insert (tpkt 0 [1,2,3])).bind fun r1 =>
  (r1.1.insert (tpkt 3 [4,5,6])).bind fun r2 =>
  r2.1.insert (tpkt 2 [10,11])

/-- A connection established after a legitimate handshake (client SYN seq 3,
server SYN/ACK seq 9 ack 4), as in the repository's hijack test. -/
def c1Conn : Connection :=
  { latched := false, reports := [],
    side_id := SideIdentifier.fromClientFlow { src := (1,1), dst := (2,2) },
    packet_count := 3, skip_hijack_detection_count := 12,
    hijack_next_ack := 4, state := TcpState.ConnectionEstablished,
    client_next_seq := 4, server_next_seq := some 10, first_syn_ack_seq := some 9 }

/-- A forged server SYN/ACK: ack 4 matches `hijack_next_ack`, seq 6699 does
not match either `hijack_next_ack` or `first_syn_ack_seq`. -/
def c1Pkt : PacketManifest :=
  { ip := { src := 2, dst := 1 },
    tcp := { src := 2, dst := 1, ack := 4, seq := 6699,
             flags := { syn := true, ack := true, fin := false, rst := false } },
    tcp_payload := [] }

/-- The hijack test's connection after SYN, SYN/ACK, forged SYN/ACK and the
client's final ACK (now in `DataTransfer` with a latched reporter). -/
def c4run3 : Option Connection :=
  (receivePacket (fromPacket cSynPkt { skip_hijack_detection_count := 12 })
      (srvPkt 9 4 true true)).bind fun c =>
  (receivePacket c (srvPkt 6699 4 true true)).bind fun c =>
  receivePacket c (cliPkt 4 10 false true)

/-- The coalesce store holding `[0,2] ↦ [1,2,3]` and `[3,5] ↦ [4,5,6]`. -/
def c5Store : OrderedCoalesce :=
  { total_size := 4,
    collection := [({ lo := 0, hi := 2 }, tpkt 0 [1,2,3]),
                   ({ lo := 3, hi := 5 }, tpkt 3 [4,5,6])] }

/-- The store after inserting `tpkt 2 [10,11]` into `c5Store` (the buggy
remainder logic re-stores `[2,3]`, replacing the value under key `[0,2]`). -/
def c5Store2 : OrderedCoalesce :=
  { total_size := 5,
    collection := [({ lo := 0, hi := 2 }, tpkt 2 [10,11]),
                   ({ lo := 3, hi := 5 }, tpkt 3 [4,5,6])] }

/-- A latched connection sitting in the `Closed` state. -/
def c4ClosedConn : Connection :=
  { latched := true,
    reports := [{ packet_count := 3, flow := { src := (2,2), dst := (1,1) },
                  hijack_seq := 6699, hijack_ack := 4 }],
    side_id := SideIdentifier.fromClientFlow { src := (1,1), dst := (2,2) },
    packet_count := 7, skip_hijack_detection_count := 12,
    hijack_next_ack := 4, state := TcpState.Closed,
    client_next_seq := 4, server_next_seq := some 10, first_syn_ack_seq := some 9 }

/-- A fresh connection in `ConnectionRequest`, as built from `cSynPkt`. -/
def c6Conn : Connection := fromPacket cSynPkt { skip_hijack_detection_count := 12 }

/-! ### C8: SequenceRange ordering -/

/-- C8: for ranges with `from ≤ to`, `a == b` holds iff the ranges intersect
(`a.from ≤ b.to ∧ b.from ≤ a.to`), and `a < b` holds iff `a.to < b.from`;
in particular `[0,3] == [3,5]` and `[0,2] < [3,5]`. -/
theorem C8_sequence_range_order (a b : SequenceRange)
    (ha : a.lo ≤ a.hi) (hb : b.lo ≤ b.hi) :
    (rangeEqb a b = true ↔ (a.lo ≤ b.hi ∧ b.lo ≤ a.hi))
    ∧ (rangeLtb a b = true ↔ a.hi < b.lo)
    ∧ rangeEqb { lo := 0, hi := 3 } { lo := 3, hi := 5 } = true
    ∧ rangeLtb { lo := 0, hi := 2 } { lo := 3, hi := 5 } = true := by
  refine ⟨?_, ?_, by decide, by decide⟩
  · unfold rangeEqb
    rw [Bool.and_eq_true, decide_eq_true_iff, decide_eq_true_iff]
    exact ⟨fun h => ⟨h.2, h.1⟩, fun h => ⟨h.2, h.1⟩⟩
  · unfold rangeLtb rangeCmp
    by_cases h : a.hi < b.lo
    · rw [if_pos h]
      exact ⟨fun _ => h, fun _ => by decide⟩
    · by_cases h2 : a.lo > b.hi
      · rw [if_neg h, if_pos h2]
        exact ⟨fun hx => absurd hx (by decide), fun hx => absurd hx h⟩
      · rw [if_neg h, if_neg h2]
        exact ⟨fun hx => absurd hx (by decide), fun hx => absurd hx h⟩

/-- Witness for C8 at `a = [0,3]`, `b = [3,5]`. -/
theorem C8_sequence_range_order_witness :
    (rangeEqb { lo := 0, hi := 3 } { lo := 3, hi := 5 } = true ↔ ((0:Nat) ≤ 5 ∧ 3 ≤ 3))
    ∧ (rangeLtb { lo := 0, hi := 3 } { lo := 3, hi := 5 } = true ↔ (3:Nat) < 3)
    ∧ rangeEqb { lo := 0, hi := 3 } { lo := 3, hi := 5 } = true
    ∧ rangeLtb { lo := 0, hi := 2 } { lo := 3, hi := 5 } = true :=
  C8_sequence_range_order { lo := 0, hi := 3 } { lo := 3, hi := 5 }
    (by decide) (by decide)

/-! ### C7: PacketManifest.split_off -/

/-- C7: for a split point `k` with `0 ≤ k − s ≤ n` (widened signed difference),
`split_off` returns the receiver holding bytes `[0, k−s)` with its original
headers and a new manifest with sequence `k`, the original IP/TCP layers, and
payload bytes `[k−s, n)`; the two payloads concatenate back to the original;
it panics exactly when `k − s` is outside `[0, n]`. -/
theorem C7_split_off (m : PacketManifest) (k : Nat) :
    (∀ _h0 : 0 ≤ seqSub k m.tcp.seq,
     ∀ _h1 : seqSub k m.tcp.seq ≤ (m.tcp_payload.length : Int),
      splitOff m k = some
        ({ m with tcp_payload := m.tcp_payload.take (seqSub k m.tcp.seq).toNat },
         { ip := m.ip,
           tcp := { m.tcp with seq := k },
           tcp_payload := m.tcp_payload.drop (seqSub k m.tcp.seq).toNat })
      ∧ m.tcp_payload.take (seqSub k m.tcp.seq).toNat
          ++ m.tcp_payload.drop (seqSub k m.tcp.seq).toNat = m.tcp_payload)
    ∧ (splitOff m k = none ↔
        (seqSub k m.tcp.seq < 0 ∨ (m.tcp_payload.length : Int) < seqSub k m.tcp.seq)) := by
  constructor
  · intro h0 h1
    refine ⟨?_, List.take_append_drop _ _⟩
    unfold splitOff
    rw [if_pos ⟨h0, h1⟩]
  · unfold splitOff
    by_cases h : 0 ≤ seqSub k m.tcp.seq ∧ seqSub k m.tcp.seq ≤ (m.tcp_payload.length : Int)
    · rw [if_pos h]
      simp only [reduceCtorEq, false_iff]
      push_neg
      exact ⟨h.1, h.2⟩
    · rw [if_neg h]
      simp only [true_iff]
      rcases not_and_or.mp h with h | h
      · exact Or.inl (lt_of_not_le h)
      · exact Or.inr (lt_of_not_le h)

/-- Witness for C7 at the S6 manifest (seq 10, payload 66..76) split at 15. -/
theorem C7_split_off_witness :
    ((0:Int) ≤ seqSub 15 (tpkt 10 [66,67,68,69,70,71,72,73,74,75,76]).tcp.seq)
    ∧ splitOff (tpkt 10 [66,67,68,69,70,71,72,73,74,75,76]) 15 = some
        (tpkt 10 [66,67,68,69,70],
         { ip := { src := 1, dst := 2 },
           tcp := { src := 1011, dst := 2022, ack := 1, seq := 15,
                    flags := { syn := false, ack := true, fin := false, rst := false } },
           tcp_payload := [71,72,73,74,75,76] }) := by
  have h := (C7_split_off (tpkt 10 [66,67,68,69,70,71,72,73,74,75,76]) 15).1
    (by decide) (by decide)
  refine ⟨by decide, ?_⟩
  rw [h.1]
  decide

/-! ### C2: Connection.from_packet -/

/-- Counterexample to C2 as stated: for the initial SYN packet (seq 3, empty
payload) the code sets `client_next_seq` to `seq + payload.len() + 1 = 4`,
not `seq + payload.len() = 3` as the claim says. -/
theorem C2_counterexample :
    (fromPacket cSynPkt { skip_hijack_detection_count := 12 }).client_next_seq = 4
    ∧ (fromPacket cSynPkt { skip_hijack_detection_count := 12 }).client_next_seq
        ≠ seqAdd cSynPkt.tcp.seq cSynPkt.tcp_payload.length := by
  constructor
  · rfl
  · decide

/-- Auxiliary: two wrapping additions collapse into one. -/
theorem seqAdd_seqAdd (s a b : Nat) : seqAdd (seqAdd s a) b = seqAdd s (a + b) := by
  unfold seqAdd
  rw [Nat.mod_add_mod, Nat.add_assoc]

/-- C2 (amended): `from_packet` on a SYN-without-ACK packet gives state
`ConnectionRequest`, `client_next_seq = seq + payload.len() + 1` (wrapping),
`hijack_next_ack = client_next_seq`, and the skip threshold from options;
otherwise on FIN or RST gives `Closed`; otherwise gives `DataTransfer` with
`client_next_seq = seq + payload.len() + 1`, `hijack_next_ack = 0` and skip
threshold 0.  In every case `packet_count = 1`, `server_next_seq` and
`first_syn_ack_seq` are unset, and the client side is the packet's source. -/
theorem C2_from_packet (p : PacketManifest) (options : ConnectionOptions) :
    ((p.tcp.flags.syn = true ∧ p.tcp.flags.ack = false) →
      (fromPacket p options).state = TcpState.ConnectionRequest
      ∧ (fromPacket p options).client_next_seq
          = seqAdd p.tcp.seq (p.tcp_payload.length + 1)
      ∧ (fromPacket p options).hijack_next_ack = (fromPacket p options).client_next_seq
      ∧ (fromPacket p options).skip_hijack_detection_count
          = options.skip_hijack_detection_count)
    ∧ (¬(p.tcp.flags.syn = true ∧ p.tcp.flags.ack = false) →
        (p.tcp.flags.fin = true ∨ p.tcp.flags.rst = true) →
        (fromPacket p options).state = TcpState.Closed)
    ∧ (¬(p.tcp.flags.syn = true ∧ p.tcp.flags.ack = false) →
        ¬(p.tcp.flags.fin = true ∨ p.tcp.flags.rst = true) →
        (fromPacket p options).state = TcpState.DataTransfer
        ∧ (fromPacket p options).client_next_seq
            = seqAdd p.tcp.seq (p.tcp_payload.length + 1)
        ∧ (fromPacket p options).hijack_next_ack = 0
        ∧ (fromPacket p options).skip_hijack_detection_count = 0)
    ∧ (fromPacket p options).packet_count = 1
    ∧ (fromPacket p options).server_next_seq = none
    ∧ (fromPacket p options).first_syn_ack_seq = none
    ∧ (fromPacket p options).side_id
        = SideIdentifier.fromClientFlow (Flow.ofPacket p) := by
  have hseq : seqAdd (seqAdd p.tcp.seq 1) p.tcp_payload.length
      = seqAdd p.tcp.seq (p.tcp_payload.length + 1) := by
    rw [seqAdd_seqAdd, Nat.add_comm]
  cases hsyn : p.tcp.flags.syn <;> cases hack : p.tcp.flags.ack <;>
    cases hfin : p.tcp.flags.fin <;> cases hrst : p.tcp.flags.rst <;>
    simp [fromPacket, hsyn, hack, hfin, hrst, hseq]

/-- Witness for C2 at the test's initial SYN packet. -/
theorem C2_from_packet_witness :
    (fromPacket cSynPkt { skip_hijack_detection_count := 12 }).state
      = TcpState.ConnectionRequest
    ∧ (fromPacket cSynPkt { skip_hijack_detection_count := 12 }).client_next_seq
        = seqAdd cSynPkt.tcp.seq (cSynPkt.tcp_payload.length + 1)
    ∧ (fromPacket cSynPkt { skip_hijack_detection_count := 12 }).packet_count = 1 := by
  have h := C2_from_packet cSynPkt { skip_hijack_detection_count := 12 }
  have h1 := h.1 (by decide)
  exact ⟨h1.1, h1.2.1, h.2.2.2.1⟩

/-! ### C3: OrderedCoalesce invariants (code bug) -/

/-- C3 fails on the code: inserting a single 3-byte packet into an empty
buffer leaves `total_size = 2` (the source adds `to − from`, dropping the
`+ 1` needed for inclusive ranges), while the stored ranges cover 3 bytes;
and after the S4 inserts the value stored under key `[0,2]` is the arriving
packet with sequence 2 and a 2-byte payload, breaking the key/value
correspondence the claim states. -/
theorem C3_invariants_failing :
    (OrderedCoalesce.new.insert (tpkt 0 [1,2,3])).map
        (fun r => (r.1.total_size, rangesSizeSum r.1)) = some (2, 3)
    ∧ s4run.map (fun r => r.1.collection.map
        (fun e => (e.1.lo, e.1.hi, e.2.tcp.seq, e.2.tcp_payload.length)))
      = some [(0, 2, 2, 2), (3, 5, 3, 3)] := by
  constructor
  · rfl
  · rfl

/-! ### C9: inert states -/

/-- C9: in `Closed`, `Invalid` or any `ConnectionClosing` substate,
`receive_packet` increments `packet_count` and changes nothing else — state,
sequence bookkeeping, skip threshold, reporter latch and emitted reports are
all untouched — for every input packet. -/
theorem C9_inert_states (c : Connection) (p : PacketManifest)
    (h : c.state = TcpState.Closed ∨ c.state = TcpState.Invalid
        ∨ ∃ sub, c.state = TcpState.ConnectionClosing sub) :
    receivePacket c p = some { c with packet_count := c.packet_count + 1 } := by
  rcases h with h | h | ⟨sub, h⟩ <;> simp [receivePacket, bumpCount, h]

/-- Witness for C9 at a concrete latched `Closed` connection. -/
theorem C9_inert_states_witness :
    receivePacket c4ClosedConn c1Pkt
      = some { c4ClosedConn with packet_count := c4ClosedConn.packet_count + 1 } :=
  C9_inert_states c4ClosedConn c1Pkt (Or.inl rfl)

/-! ### C1: the hijack detector -/

/-- Counterexample to C1 as stated: the detector fires on the forged SYN/ACK
whose sequence number 6699 does NOT equal `hijack_next_ack` (4) — the code
compares the packet's acknowledgement number, not its sequence number,
against `hijack_next_ack`, so the claimed iff fails at this input. -/
theorem C1_counterexample :
    detectHijack c1Conn c1Pkt = some (some
      { packet_count := 3, flow := { src := (2,2), dst := (1,1) },
        hijack_seq := 6699, hijack_ack := 4 })
    ∧ c1Pkt.tcp.seq ≠ c1Conn.hijack_next_ack := by
  constructor
  · rfl
  · decide

/-- C1 (amended): for a packet the side identifier can classify, the hijack
detector produces a report iff the packet is from the Server side, has both
SYN and ACK set, its ACKNOWLEDGEMENT number equals `hijack_next_ack`, and its
sequence number differs from the recorded `first_syn_ack_seq`; the report
carries the current packet count, the packet's flow, its sequence number and
its acknowledgement number. -/
theorem C1_detect_hijack (c : Connection) (p : PacketManifest) (sd : Side)
    (hid : c.side_id.identify p = some sd) :
    ((∃ r, detectHijack c p = some (some r)) ↔
      (sd = Side.Server ∧ p.tcp.flags.syn = true ∧ p.tcp.flags.ack = true
        ∧ p.tcp.ack = c.hijack_next_ack ∧ some p.tcp.seq ≠ c.first_syn_ack_seq))
    ∧ (∀ r, detectHijack c p = some (some r) →
        r = { packet_count := c.packet_count, flow := Flow.ofPacket p,
              hijack_seq := p.tcp.seq, hijack_ack := p.tcp.ack }) := by
  unfold detectHijack
  rw [hid]
  by_cases h1 : sd = Side.Server <;>
    by_cases h2 : p.tcp.flags.syn = true <;>
    by_cases h3 : p.tcp.flags.ack = true <;>
    by_cases h4 : p.tcp.ack = c.hijack_next_ack <;>
    by_cases h5 : some p.tcp.seq = c.first_syn_ack_seq <;>
    simp_all

/-- Witness for C1 at the established connection and the forged SYN/ACK. -/
theorem C1_detect_hijack_witness :
    ((∃ r, detectHijack c1Conn c1Pkt = some (some r)) ↔
      (Side.Server = Side.Server ∧ c1Pkt.tcp.flags.syn = true
        ∧ c1Pkt.tcp.flags.ack = true ∧ c1Pkt.tcp.ack = c1Conn.hijack_next_ack
        ∧ some c1Pkt.tcp.seq ≠ c1Conn.first_syn_ack_seq))
    ∧ (∀ r, detectHijack c1Conn c1Pkt = some (some r) →
        r = { packet_count := c1Conn.packet_count, flow := Flow.ofPacket c1Pkt,
              hijack_seq := c1Pkt.tcp.seq, hijack_ack := c1Pkt.tcp.ack }) :=
  C1_detect_hijack c1Conn c1Pkt Side.Server (by decide)

/-! ### C6: the ConnectionRequest state -/

/-- C6: in `ConnectionRequest`, `receive_packet` moves to
`ConnectionEstablished` with `server_next_seq = seq + payload.len() + 1` and
`first_syn_ack_seq = seq` exactly when the packet is from the Server side
with both SYN and ACK set and its acknowledgement number equals
`client_next_seq`; on any deviation only `packet_count` changes and no
report is emitted. -/
theorem C6_connection_request (c : Connection) (p : PacketManifest) (sd : Side)
    (hstate : c.state = TcpState.ConnectionRequest)
    (hid : c.side_id.identify p = some sd) :
    ((sd = Side.Server ∧ p.tcp.flags.syn = true ∧ p.tcp.flags.ack = true
        ∧ p.tcp.ack = c.client_next_seq) →
      receivePacket c p = some
        { c with
          packet_count := c.packet_count + 1,
          state := TcpState.ConnectionEstablished,
          server_next_seq := some (seqAdd p.tcp.seq (p.tcp_payload.length + 1)),
          first_syn_ack_seq := some p.tcp.seq })
    ∧ (¬(sd = Side.Server ∧ p.tcp.flags.syn = true ∧ p.tcp.flags.ack = true
        ∧ p.tcp.ack = c.client_next_seq) →
      receivePacket c p = some { c with packet_count := c.packet_count + 1 }) := by
  have hsub : (seqSub c.client_next_seq p.tcp.ack = 0) ↔ p.tcp.ack = c.client_next_seq := by
    unfold seqSub
    omega
  have hrp : receivePacket c p = stateConnectionRequest (bumpCount c) p := by
    unfold receivePacket
    rw [hstate]
  constructor
  · rintro ⟨hsd, hsyn, hack, hmatch⟩
    rw [hrp]
    unfold stateConnectionRequest
    simp only [bumpCount, hid]
    subst hsd
    rw [if_pos rfl, if_pos (show (p.tcp.flags.syn && p.tcp.flags.ack) = true by rw [hsyn, hack]; rfl),
      if_pos (show seqSub c.client_next_seq p.tcp.ack = 0 from hsub.mpr hmatch)]
  · intro hdev
    rw [hrp]
    unfold stateConnectionRequest
    simp only [bumpCount, hid]
    by_cases h1 : sd = Side.Server
    · rw [if_pos h1]
      by_cases h2 : (p.tcp.flags.syn && p.tcp.flags.ack) = true
      · rw [if_pos h2]
        by_cases h3 : seqSub c.client_next_seq p.tcp.ack = 0
        · exact absurd ⟨h1, ((Bool.and_eq_true _ _).mp h2).1,
            ((Bool.and_eq_true _ _).mp h2).2, hsub.mp h3⟩ hdev
        · rw [if_neg h3]
      · rw [if_neg h2]
    · rw [if_neg h1]

/-- Witness for C6: the legitimate server SYN/ACK (seq 9, ack 4) establishes
the test connection. -/
theorem C6_connection_request_witness :
    receivePacket c6Conn (srvPkt 9 4 true true) = some
      { c6Conn with
        packet_count := c6Conn.packet_count + 1,
        state := TcpState.ConnectionEstablished,
        server_next_seq := some (seqAdd (srvPkt 9 4 true true).tcp.seq
          ((srvPkt 9 4 true true).tcp_payload.length + 1)),
        first_syn_ack_seq := some (srvPkt 9 4 true true).tcp.seq } :=
  (C6_connection_request c6Conn (srvPkt 9 4 true true) Side.Server
    (by decide) (by decide)).1 (by decide)

/-! ### C4: reporter latching -/

/-- Counterexample to C4 as stated: running the repository's hijack scenario,
after the forged SYN/ACK the reporter is latched with one report, yet the
next forged SYN/ACK delivered in `DataTransfer` is reported again —
`state_data_transfer` never consults `is_attack_detected` (the repository's
own test asserts this second report). -/
theorem C4_counterexample :
    c4run3.map (fun c => (c.latched, c.reports.length, c.state)) =
      some (true, 1, TcpState.DataTransfer)
    ∧ (c4run3.bind (fun c => receivePacket c (srvPkt 7711 4 true true))).map
        (fun c => c.reports.length) = some 2 := by
  constructor
  · rfl
  · rfl

/-- Auxiliary frame fact: `state_connection_request` never touches the
reporter. -/
theorem stateConnectionRequest_frame (c : Connection) (p : PacketManifest)
    (c2 : Connection) (h : stateConnectionRequest c p = some c2) :
    c2.reports = c.reports ∧ c2.latched = c.latched := by
  unfold stateConnectionRequest at h
  rcases hid : c.side_id.identify p with _ | sd <;> simp only [hid] at h
  · cases h
  · by_cases h1 : sd = Side.Server
    · rw [if_pos h1] at h
      by_cases h2 : (p.tcp.flags.syn && p.tcp.flags.ack) = true
      · rw [if_pos h2] at h
        by_cases h3 : seqSub c.client_next_seq p.tcp.ack = 0
        · rw [if_pos h3] at h
          cases h
          exact ⟨rfl, rfl⟩
        · rw [if_neg h3] at h
          cases h
          exact ⟨rfl, rfl⟩
      · rw [if_neg h2] at h
        cases h
        exact ⟨rfl, rfl⟩
    · rw [if_neg h1] at h
      cases h
      exact ⟨rfl, rfl⟩

/-- Auxiliary frame fact: the tail of `state_connection_established` (after
the detector) never touches the reporter. -/
theorem stateConnectionEstablishedTail_frame (c : Connection) (p : PacketManifest)
    (c2 : Connection) (sd : Side) (hid : c.side_id.identify p = some sd)
    (h : (match c.side_id.identify p with
          | none => (none : Option Connection)
          | some sd =>
            if sd = Side.Client then
              if p.tcp.flags.syn || !p.tcp.flags.ack then some c
              else
                if p.tcp.seq = c.client_next_seq then
                  if some p.tcp.ack = c.server_next_seq then
                    some { c with state := TcpState.DataTransfer }
                  else some c
                else some c
            else some c) = some c2) :
    c2.reports = c.reports ∧ c2.latched = c.latched := by
  simp only [hid] at h
  by_cases h1 : sd = Side.Client
  · rw [if_pos h1] at h
    by_cases h2 : (p.tcp.flags.syn || !p.tcp.flags.ack) = true
    · rw [if_pos h2] at h
      cases h
      exact ⟨rfl, rfl⟩
    · rw [if_neg h2] at h
      by_cases h3 : p.tcp.seq = c.client_next_seq
      · rw [if_pos h3] at h
        by_cases h4 : some p.tcp.ack = c.server_next_seq
        · rw [if_pos h4] at h
          cases h
          exact ⟨rfl, rfl⟩
        · rw [if_neg h4] at h
          cases h
          exact ⟨rfl, rfl⟩
      · rw [if_neg h3] at h
        cases h
        exact ⟨rfl, rfl⟩
  · rw [if_neg h1] at h
    cases h
    exact ⟨rfl, rfl⟩

/-- Auxiliary frame fact: with a latched reporter,
`state_connection_established` skips the detector and never reports. -/
theorem stateConnectionEstablished_latched_frame (c : Connection)
    (p : PacketManifest) (c2 : Connection) (hl : c.latched = true)
    (h : stateConnectionEstablished c p = some c2) :
    c2.reports = c.reports ∧ c2.latched = true := by
  unfold stateConnectionEstablished at h
  rw [hl] at h
  simp only [Bool.not_true, Bool.false_eq_true, if_false] at h
  rcases hid : c.side_id.identify p with _ | sd
  · rw [hid] at h
    cases h
  · have := stateConnectionEstablishedTail_frame c p c2 sd hid h
    exact ⟨this.1, this.2.trans hl⟩

/-- C4 (amended): once the reporter has latched, a `receive_packet` in any
state OTHER than `DataTransfer` emits no further report (the latch stays
set); in `DataTransfer` the latch is not consulted, so a further report can
be emitted there (see the counterexample). -/
theorem C4_latch_suppression (c : Connection) (p : PacketManifest)
    (c2 : Connection) (hl : c.latched = true)
    (hst : c.state ≠ TcpState.DataTransfer)
    (h : receivePacket c p = some c2) :
    c2.reports = c.reports ∧ c2.latched = true := by
  unfold receivePacket at h
  rcases hc : c.state with _ | _ | _ | sub <;> rw [hc] at h
  · have := stateConnectionRequest_frame (bumpCount c) p c2 h
    exact ⟨this.1, this.2.trans hl⟩
  · exact stateConnectionEstablished_latched_frame (bumpCount c) p c2 hl h
  · exact absurd hc hst
  · cases h; exact ⟨rfl, hl⟩
  · cases h; exact ⟨rfl, hl⟩
  · cases h; exact ⟨rfl, hl⟩

/-- Witness for C4 at a latched `Closed` connection receiving a forged
SYN/ACK. -/
theorem C4_latch_suppression_witness :
    ({ c4ClosedConn with packet_count := c4ClosedConn.packet_count + 1 } :
        Connection).reports = c4ClosedConn.reports
    ∧ ({ c4ClosedConn with packet_count := c4ClosedConn.packet_count + 1 } :
        Connection).latched = true :=
  C4_latch_suppression c4ClosedConn c1Pkt
    { c4ClosedConn with packet_count := c4ClosedConn.packet_count + 1 }
    (by decide) (by decide) (by rfl)

/-! ### C10: the ring buffer -/

/-- `Ring.push` preserves the reachability invariant. -/
theorem ringInv_push {T : Type} {c : Nat} {ys : List T} {r : Ring T} (y : T)
    (h : RingInv c ys r) : RingInv c (ys ++ [y]) (r.push y) := by
  obtain ⟨hcap, hcase⟩ := h
  rcases hcase with ⟨hoi, hbuf, hlen⟩ | ⟨i, hoi, hilt, hblen, hcy, heq⟩
  · -- filling phase
    simp only [Ring.push, hoi]
    have hysl : r.buffer.length = ys.length := by rw [hbuf]
    by_cases hfull : (r.buffer ++ [y]).length = r.cap
    · rw [if_pos hfull]
      have hys1 : ys.length + 1 = c := by
        have := hfull
        simp only [List.length_append, List.length_cons, List.length_nil] at this
        omega
      refine ⟨hcap, Or.inr ⟨0, rfl, ?_, ?_, ?_, ?_⟩⟩
      · simp
      · simp only [List.length_append, List.length_cons, List.length_nil]
        omega
      · simp only [List.length_append, List.length_cons, List.length_nil]
        omega
      · rw [List.drop_zero, List.take_zero, List.append_nil, hbuf]
        have : (ys ++ [y]).length - c = 0 := by
          simp only [List.length_append, List.length_cons, List.length_nil]
          omega
        rw [this, List.drop_zero]
    · rw [if_neg hfull]
      refine ⟨hcap, Or.inl ⟨rfl, by rw [hbuf], ?_⟩⟩
      have hne : (r.buffer ++ [y]).length ≠ c := by rw [hcap] at hfull; exact hfull
      simp only [List.length_append, List.length_cons, List.length_nil] at hne
      simp only [List.length_append, List.length_cons, List.length_nil]
      omega
  · -- wrapped phase
    simp only [Ring.push, hoi]
    have hc0 : 0 < c := by omega
    have hset : r.buffer.set i y = r.buffer.take i ++ y :: r.buffer.drop (i + 1) :=
      List.set_eq_take_cons_drop y hilt
    have htake : (r.buffer.set i y).take (i + 1) = r.buffer.take i ++ [y] := by
      rw [hset, List.take_append_eq_append_take]
      have hlen1 : (r.buffer.take i).length = i := by
        rw [List.length_take]
        omega
      rw [hlen1, List.take_take]
      have : min (i + 1) i = i := by omega
      rw [this]
      have : i + 1 - i = 1 := by omega
      rw [this]
      rfl
    have hdrop : (r.buffer.set i y).drop (i + 1) = r.buffer.drop (i + 1) := by
      rw [List.drop_set, if_pos (by omega)]
    have hrhs : (ys ++ [y]).drop ((ys ++ [y]).length - c)
        = (r.buffer.drop (i + 1) ++ r.buffer.take i) ++ [y] := by
      have hlen2 : (ys ++ [y]).length - c = (ys.length - c) + 1 := by
        simp only [List.length_append, List.length_cons, List.length_nil]
        omega
      rw [hlen2, List.drop_append_of_le_length (by omega), ← List.tail_drop, ← heq,
        List.drop_eq_getElem_cons hilt]
      rfl
    by_cases hwrap : i + 1 = r.buffer.length
    · rw [if_pos hwrap]
      refine ⟨hcap, Or.inr ⟨0, rfl, ?_, ?_, ?_, ?_⟩⟩
      · simp only [List.length_set]
        omega
      · simp only [List.length_set]
        exact hblen
      · simp only [List.length_append, List.length_cons, List.length_nil]
        omega
      · have hnil : r.buffer.drop (i + 1) = [] := by
          rw [hwrap]
          exact List.drop_length _
        rw [List.drop_zero, List.take_zero, List.append_nil, hrhs, hset, hnil,
          List.nil_append]
    · rw [if_neg hwrap]
      refine ⟨hcap, Or.inr ⟨i + 1, rfl, ?_, ?_, ?_, ?_⟩⟩
      · simp only [List.length_set]
        omega
      · simp only [List.length_set]
        exact hblen
      · simp only [List.length_append, List.length_cons, List.length_nil]
        omega
      · rw [hdrop, htake, hrhs, List.append_assoc]

/-- `Ring.pushAll` preserves the reachability invariant. -/
theorem ringInv_pushAll {T : Type} {c : Nat} :
    ∀ (xs : List T) {ys : List T} {r : Ring T},
      RingInv c ys r → RingInv c (ys ++ xs) (r.pushAll xs)
  | [], ys, r, h => by simpa using h
  | x :: xs, ys, r, h => by
    have h2 := ringInv_pushAll xs (ringInv_push x h)
    rw [List.append_assoc] at h2
    simpa [Ring.pushAll] using h2

/-- C10: a ring of capacity `c > 0`, after any sequence of `n` pushes, yields
from `iter()` exactly the last `min(n, c)` pushed elements in push order;
`first()` returns the head of that sequence (the oldest retained element);
and `Ring::new(0)` panics. -/
theorem C10_ring (T : Type) (c : Nat) (hc : 0 < c) (xs : List T) :
    Ring.new T 0 = none
    ∧ ∀ r0, Ring.new T c = some r0 →
        (r0.pushAll xs).iterList = xs.drop (xs.length - min xs.length c)
        ∧ (r0.pushAll xs).first? = (r0.pushAll xs).iterList.head? := by
  refine ⟨rfl, ?_⟩
  intro r0 h0
  have hr0 : r0 = { cap := c, buffer := [], oldest_ind := none } := by
    unfold Ring.new at h0
    rw [if_neg (by omega)] at h0
    cases h0
    rfl
  have hinv0 : RingInv c [] r0 := by
    rw [hr0]
    exact ⟨rfl, Or.inl ⟨rfl, rfl, by simpa using hc⟩⟩
  have hinv := ringInv_pushAll xs hinv0
  rw [List.nil_append] at hinv
  obtain ⟨hcap, hcase⟩ := hinv
  rcases hcase with ⟨hoi, hbuf, hlen⟩ | ⟨i, hoi, hilt, hblen, hcy, heq⟩
  · -- still filling: everything is retained
    have hmin : min xs.length c = xs.length := by omega
    constructor
    · simp only [Ring.iterList, hoi, hbuf, hmin]
      rw [Nat.sub_self, List.drop_zero]
    · simp only [Ring.first?, Ring.iterList, hoi]
  · -- wrapped: the last `c` pushes are retained
    have hmin : min xs.length c = c := by omega
    constructor
    · simp only [Ring.iterList, hoi, hmin]
      exact heq
    · simp only [Ring.first?, Ring.iterList, hoi]
      rw [List.drop_eq_getElem_cons hilt, List.get?_eq_getElem?,
        List.getElem?_eq_getElem hilt]
      rfl

/-- Witness for C10: capacity 3, pushes `[1,2,3,4,5]` (the repository's ring
tests' scenario). -/
theorem C10_ring_witness :
    Ring.new Nat 0 = none
    ∧ (Ring.pushAll { cap := 3, buffer := [], oldest_ind := none } [1,2,3,4,5]).iterList
        = [1,2,3,4,5].drop (([1,2,3,4,5] : List Nat).length - min ([1,2,3,4,5] : List Nat).length 3)
    ∧ (Ring.pushAll { cap := 3, buffer := [], oldest_ind := none } [1,2,3,4,5]).first?
        = (Ring.pushAll ({ cap := 3, buffer := [], oldest_ind := none } : Ring Nat)
            [1,2,3,4,5]).iterList.head? := by
  have h := C10_ring Nat 3 (by decide) [1,2,3,4,5]
  have h2 := h.2 { cap := 3, buffer := [], oldest_ind := none } rfl
  exact ⟨h.1, h2.1, h2.2⟩

/-! ### C5: overlap blocks -/

/-- Counterexample to C5 as stated: with `[5,5] ↦ [9]` stored (inserted into
an empty buffer), inserting seq 3, payload `[1,2,3,4,5,6]` overlaps that
stored range with disagreeing bytes (stored `[9]` vs arriving `[3]`), so the
claim demands exactly one OverlapBlock — but the code panics while splitting
the remainder ranges `[3,5]`,`[5,8]` (the second `split_off` is handed
sequence 5 on a packet already advanced to sequence 6) and returns nothing. -/
theorem C5_counterexample :
    (OrderedCoalesce.new.insert (tpkt 5 [9])).map (fun r => r.2) = some []
    ∧ subPayload (tpkt 3 [1,2,3,4,5,6]).tcp_payload { lo := 5, hi := 5 } 3 = some [3]
    ∧ subPayload (tpkt 5 [9]).tcp_payload { lo := 5, hi := 5 } 5 = some [9]
    ∧ ((OrderedCoalesce.new.insert (tpkt 5 [9])).bind
        (fun r => r.1.insert (tpkt 3 [1,2,3,4,5,6]))) = none := by
  refine ⟨rfl, rfl, rfl, rfl⟩

/-- Auxiliary: in a sorted well-formed tail, every entry starts strictly
after the head's key ends. -/
theorem chain_all_after {l : List (SequenceRange × PacketManifest)} :
    ∀ {e : SequenceRange × PacketManifest},
      List.Chain' (fun a b => a.1.hi < b.1.lo) (e :: l) →
      (∀ x ∈ l, x.1.lo ≤ x.1.hi) →
      ∀ x ∈ l, e.1.hi < x.1.lo := by
  induction l with
  | nil =>
    intro e _ _ x hx
    cases hx
  | cons f rest ih =>
    intro e hch hwf x hx
    have hef : e.1.hi < f.1.lo := (List.chain'_cons.mp hch).1
    rcases List.mem_cons.mp hx with rfl | hx
    · exact hef
    · have hfx := ih (List.chain'_cons.mp hch).2
        (fun z hz => hwf z (List.mem_cons_of_mem _ hz)) x hx
      have hfwf := hwf f (List.mem_cons_self _ _)
      omega

/-- Auxiliary: `dropWhile` preserves sortedness. -/
theorem chain'_dropWhile {α : Type} {R : α → α → Prop} (p : α → Bool) :
    ∀ l : List α, List.Chain' R l → List.Chain' R (l.dropWhile p)
  | [], h => h
  | a :: l, h => by
    rw [List.dropWhile_cons]
    by_cases hp : p a = true
    · rw [if_pos hp]
      exact chain'_dropWhile p l h.tail
    · rw [if_neg hp]
      exact h

/-- Auxiliary: membership in `dropWhile` implies membership. -/
theorem mem_of_mem_dropWhile {α : Type} {p : α → Bool} :
    ∀ {l : List α} {x : α}, x ∈ l.dropWhile p → x ∈ l := by
  intro l x hx
  exact (List.dropWhile_sublist p).mem hx

/-- Auxiliary: every entry yielded by `range(query..)` ends at or after
`query`'s start (none of them is strictly left of the query). -/
theorem btreeRangeFrom_not_lt (range : SequenceRange) :
    ∀ col : List (SequenceRange × PacketManifest),
      entriesSorted col → keysWF col →
      ∀ e ∈ btreeRangeFrom col range, range.lo ≤ e.1.hi
  | [], _, _ => by
    intro e he
    cases he
  | f :: rest, hch, hwf => by
    intro e he
    unfold btreeRangeFrom at he
    rw [List.dropWhile_cons] at he
    by_cases hp : (rangeCmp f.1 range == Ordering.lt) = true
    · rw [if_pos hp] at he
      exact btreeRangeFrom_not_lt range rest hch.tail
        (fun z hz => hwf z (List.mem_cons_of_mem _ hz)) e he
    · rw [if_neg hp] at he
      have hhead : range.lo ≤ f.1.hi := by
        unfold rangeCmp at hp
        by_cases h1 : f.1.hi < range.lo
        · rw [if_pos h1] at hp
          exact absurd rfl hp
        · omega
      rcases List.mem_cons.mp he with rfl | he
      · exact hhead
      · have hgt := chain_all_after hch
          (fun z hz => hwf z (List.mem_cons_of_mem _ hz)) e he
        have hewf := hwf e (List.mem_cons_of_mem _ he)
        omega

/-- Auxiliary: the entries skipped by `range(query..)` are strictly left of
the query, so they contribute no expected block. -/
theorem filterMap_expected_dropWhile (range : SequenceRange) (payload : List Nat) :
    ∀ col : List (SequenceRange × PacketManifest),
      col.filterMap (expectedBlock range payload)
        = (btreeRangeFrom col range).filterMap (expectedBlock range payload)
  | [] => rfl
  | f :: rest => by
    unfold btreeRangeFrom
    rw [List.dropWhile_cons]
    by_cases hp : (rangeCmp f.1 range == Ordering.lt) = true
    · rw [if_pos hp]
      have hlt : f.1.hi < range.lo := by
        unfold rangeCmp at hp
        by_cases h1 : f.1.hi < range.lo
        · exact h1
        · rw [if_neg h1] at hp
          by_cases h2 : f.1.lo > range.hi
          · rw [if_pos h2] at hp
            exact absurd hp (by decide)
          · rw [if_neg h2] at hp
            exact absurd hp (by decide)
      have hnone : expectedBlock range payload f = none := by
        unfold expectedBlock
        rw [if_neg ?hne]
        case hne =>
          unfold rangeEqb
          intro hcon
          rw [Bool.and_eq_true, decide_eq_true_iff, decide_eq_true_iff] at hcon
          omega
      rw [List.filterMap_cons_none hnone]
      exact filterMap_expected_dropWhile range payload rest
    · rw [if_neg hp]

/-- Auxiliary: over a sorted, well-formed suffix of stored entries, the
overlap-check loop accumulates exactly the expected blocks of those entries
behind whatever the accumulator already holds. -/
theorem overlapLoop_blocks (range : SequenceRange) (payload : List Nat) :
    ∀ (entries : List (SequenceRange × PacketManifest)) (fin : List SequenceRange)
      (cur : SequenceRange) (blocks0 : List OverlapBlock)
      (res : List SequenceRange × List OverlapBlock),
      cur.hi = range.hi →
      entriesSorted entries →
      keysWF entries →
      (∀ e ∈ entries, range.lo ≤ e.1.hi) →
      overlapLoop range payload entries fin cur blocks0 = some res →
      res.2 = blocks0 ++ entries.filterMap (expectedBlock range payload)
  | [], fin, cur, blocks0, res, _, _, _, _, h => by
    cases h
    simp
  | (k, v) :: rest, fin, cur, blocks0, res, hcur, hch, hwf, hnlt, h => by
    have hknlt : range.lo ≤ k.hi := hnlt (k, v) (List.mem_cons_self _ _)
    have hkwf : k.lo ≤ k.hi := hwf (k, v) (List.mem_cons_self _ _)
    have hwfrest : keysWF rest := fun z hz => hwf z (List.mem_cons_of_mem _ hz)
    simp only [overlapLoop] at h
    by_cases hkb : rangeEqb k range = false
    · rw [if_pos hkb] at h
      cases h
      have hkgt : range.hi < k.lo := by
        unfold rangeEqb at hkb
        rcases Bool.and_eq_false_iff.mp hkb with h1 | h1 <;>
          rw [decide_eq_false_iff_not] at h1 <;> omega
      have hnone : ∀ e ∈ (k, v) :: rest, expectedBlock range payload e = none := by
        intro e he
        have help : range.hi < e.1.lo := by
          rcases List.mem_cons.mp he with rfl | he
          · exact hkgt
          · have hca : k.hi < e.1.lo := chain_all_after hch hwfrest e he
            omega
        unfold expectedBlock
        rw [if_neg ?hne]
        case hne =>
          unfold rangeEqb
          intro hcon
          rw [Bool.and_eq_true, decide_eq_true_iff, decide_eq_true_iff] at hcon
          omega
      rw [List.filterMap_eq_nil_iff.mpr hnone, List.append_nil]
    · have hkb' : rangeEqb k range = true := by
        rcases Bool.eq_false_or_eq_true (rangeEqb k range) with h1 | h1
        · exact h1
        · exact absurd h1 hkb
      rw [if_neg hkb] at h
      rcases hsp1 : subPayload payload
          { lo := max k.lo range.lo, hi := min k.hi range.hi } range.lo with _ | looser
      · rw [hsp1] at h
        simp at h
      · rcases hsp2 : subPayload v.tcp_payload
            { lo := max k.lo range.lo, hi := min k.hi range.hi } v.tcp.seq with _ | winner
        · rw [hsp1, hsp2] at h
          simp at h
        · simp only [hsp1, hsp2] at h
          have hexp : expectedBlock range payload (k, v)
              = if winner ≠ looser then
                  some ⟨winner, looser, ⟨max k.lo range.lo, min k.hi range.hi⟩⟩
                else none := by
            unfold expectedBlock
            rw [if_pos hkb']
            simp only [hsp1, hsp2]
          by_cases hk2 : k.hi ≤ cur.hi
          · rw [if_pos hk2] at h
            have hrestnlt : ∀ e ∈ rest, range.lo ≤ e.1.hi := by
              intro e he
              have hca : k.hi < e.1.lo := chain_all_after hch hwfrest e he
              have := hwfrest e he
              omega
            by_cases hwl : winner ≠ looser
            · rw [if_pos hwl] at h
              have ih := overlapLoop_blocks range payload rest _ _ _ _
                (by exact hcur) hch.tail hwfrest hrestnlt h
              rw [ih]
              have hfk : expectedBlock range payload (k, v)
                  = some ⟨winner, looser, ⟨max k.lo range.lo, min k.hi range.hi⟩⟩ := by
                rw [hexp, if_pos hwl]
              rw [List.filterMap_cons_some hfk, List.append_assoc]
              rfl
            · rw [if_neg hwl] at h
              have ih := overlapLoop_blocks range payload rest _ _ _ _
                (by exact hcur) hch.tail hwfrest hrestnlt h
              rw [ih]
              have hfk : expectedBlock range payload (k, v) = none := by
                rw [hexp, if_neg hwl]
              rw [List.filterMap_cons_none hfk]
          · rw [if_neg hk2] at h
            cases h
            have hrest : ∀ e ∈ rest, expectedBlock range payload e = none := by
              intro e he
              have hgt : k.hi < e.1.lo := chain_all_after hch hwfrest e he
              unfold expectedBlock
              rw [if_neg ?hne2]
              case hne2 =>
                unfold rangeEqb
                intro hcon
                rw [Bool.and_eq_true, decide_eq_true_iff, decide_eq_true_iff] at hcon
                omega
            by_cases hwl : winner ≠ looser
            · have hfk : expectedBlock range payload (k, v)
                  = some ⟨winner, looser, ⟨max k.lo range.lo, min k.hi range.hi⟩⟩ := by
                rw [hexp, if_pos hwl]
              rw [List.filterMap_cons_some hfk, List.filterMap_eq_nil_iff.mpr hrest]
              rw [if_pos hwl]
            · have hfk : expectedBlock range payload (k, v) = none := by
                rw [hexp, if_neg hwl]
              rw [List.filterMap_cons_none hfk, List.filterMap_eq_nil_iff.mpr hrest,
                List.append_nil]
              rw [if_neg hwl]

/-- C5 (amended): when `insert` completes without panicking on a sorted,
well-formed store, it returns exactly one OverlapBlock per stored range that
intersects the arriving packet's range with disagreeing bytes over the
intersection — winner from the stored payload, loser from the arriving
payload, range equal to the intersection — and none for agreeing overlaps;
`insert` can instead panic during remainder splitting (see the
counterexample).  In particular, after `insert(seq=0,[1,2,3])` and
`insert(seq=3,[4,5,6])`, `insert(seq=2,[10,11])` returns exactly the blocks
(winner=[3], loser=[10], range=[2,2]) and (winner=[4], loser=[11],
range=[3,3]). -/
theorem C5_overlap_blocks (oc : OrderedCoalesce) (p : PacketManifest)
    (oc2 : OrderedCoalesce) (blocks : List OverlapBlock)
    (hch : entriesSorted oc.collection)
    (hwf : keysWF oc.collection)
    (hne : p.tcp_payload ≠ [])
    (h : oc.insert p = some (oc2, blocks)) :
    blocks = oc.collection.filterMap (expectedBlock
        { lo := p.tcp.seq, hi := seqAdd p.tcp.seq (p.tcp_payload.length - 1) }
        p.tcp_payload)
    ∧ s4run = some (c5Store2,
        [⟨[3], [10], ⟨2, 2⟩⟩, ⟨[4], [11], ⟨3, 3⟩⟩]) := by
  refine ⟨?_, by rfl⟩
  unfold OrderedCoalesce.insert at h
  have hemp : p.tcp_payload.isEmpty = false := by
    cases hp : p.tcp_payload
    · exact absurd hp hne
    · rfl
  rw [hemp] at h
  simp only [Bool.false_eq_true, if_false] at h
  rcases hoc : overlapCheck oc
      { lo := p.tcp.seq, hi := seqAdd p.tcp.seq (p.tcp_payload.length - 1) }
      p.tcp_payload with _ | pr
  · simp only [hoc] at h
    cases h
  · rcases pr with ⟨no, bl⟩
    simp only [hoc] at h
    rcases hsp : splitIntoSubPackets p no with _ | pairs
    · simp only [hsp] at h
      cases h
    · simp only [hsp] at h
      cases h
      unfold overlapCheck at hoc
      have hloop := overlapLoop_blocks
        { lo := p.tcp.seq, hi := seqAdd p.tcp.seq (p.tcp_payload.length - 1) }
        p.tcp_payload
        (btreeRangeFrom oc.collection
          { lo := p.tcp.seq, hi := seqAdd p.tcp.seq (p.tcp_payload.length - 1) })
        [] _ [] (no, blocks) rfl
        (chain'_dropWhile _ oc.collection hch)
        (fun z hz => hwf z (mem_of_mem_dropWhile hz))
        (btreeRangeFrom_not_lt _ oc.collection hch hwf)
        hoc
      rw [filterMap_expected_dropWhile]
      rw [List.nil_append] at hloop
      exact hloop

/-- Witness for C5 at the S4 store and arriving packet. -/
theorem C5_overlap_blocks_witness :
    ([⟨[3], [10], ⟨2, 2⟩⟩, ⟨[4], [11], ⟨3, 3⟩⟩] : List OverlapBlock)
      = c5Store.collection.filterMap (expectedBlock
          { lo := (tpkt 2 [10,11]).tcp.seq,
            hi := seqAdd (tpkt 2 [10,11]).tcp.seq ((tpkt 2 [10,11]).tcp_payload.length - 1) }
          (tpkt 2 [10,11]).tcp_payload)
    ∧ s4run = some (c5Store2,
        [⟨[3], [10], ⟨2, 2⟩⟩, ⟨[4], [11], ⟨3, 3⟩⟩]) :=
  C5_overlap_blocks c5Store (tpkt 2 [10,11]) c5Store2
    [⟨[3], [10], ⟨2, 2⟩⟩, ⟨[4], [11], ⟨3, 3⟩⟩]
    (by simp [entriesSorted, c5Store, List.chain'_cons])
    (by unfold keysWF; decide) (by decide) (by rfl)

end DetectInj

